import Mathlib

/-!
Shallow embedding of `cafe_ordering_system.py`: menu catalog, order
assembly, observer notifications, billing and payment confirmation.
Python floats are modelled as exact rationals (`ℚ`), Python ints as `Int`,
and a Python runtime fault (an exception) as `Option`/`Except` absence.
The side effect of an `Order` mutation calling `notify` is modelled as the
list of messages the operation passes to `notify`; the fan-out of one
`notify` call over the observer list is modelled separately by
`Subject.notify`, which returns the trace of `update` invocations it
performs. The interactive re-prompting loop of `Payment.process_payment`
receives its stdin lines as an explicit oracle list.
-/

namespace Cafe

/-- `MenuItem` class hierarchy: `FoodItem` and `DrinkItem` (which adds a
`drink_size` attribute, possibly `None`). -/
inductive MenuItem where
  | food (item_id : Int) (item_name : String) (item_price : ℚ)
  | drink (item_id : Int) (item_name : String) (item_price : ℚ) (drink_size : Option String)
deriving DecidableEq, Repr

def MenuItem.item_id : MenuItem → Int
  | .food i _ _ => i
  | .drink i _ _ _ => i

def MenuItem.item_name : MenuItem → String
  | .food _ n _ => n
  | .drink _ n _ _ => n

def MenuItem.item_price : MenuItem → ℚ
  | .food _ _ p => p
  | .drink _ _ p _ => p

/-- `MenuItemFactory.create_menu_item`: dispatches on the lowercased type
tag, raising `ValueError` (here `Except.error`) on any other tag. -/
def MenuItemFactory.create_menu_item (item_type : String) (item_id : Int)
    (name : String) (price : ℚ) (size : Option String) : Except String MenuItem :=
  if item_type.toLower = "food" then .ok (.food item_id name price)
  else if item_type.toLower = "drink" then .ok (.drink item_id name price size)
  else .error "Invalid menu item type"

/-- `OrderItem`: one line of an order. `menu_item` is a reference to a
`MenuItem`; `none` models a faulty (malformed) item reference, whose
attribute access raises at runtime in the Python source. -/
structure OrderItem where
  orderitem_id : Int
  menu_item : Option MenuItem
  quantity : Int
deriving DecidableEq, Repr

/-- `OrderItem.get_line_total`: `menu_item.item_price * quantity`; faults
(`none`) when the item reference is malformed. -/
def OrderItem.get_line_total (oi : OrderItem) : Option ℚ :=
  oi.menu_item.map (fun m => m.item_price * (oi.quantity : ℚ))

/-- `Order`: id, date (opaque), status string, ordered line sequence. -/
structure Order where
  order_id : Int
  order_date : Int
  order_status : String
  order_items : List OrderItem
deriving DecidableEq, Repr

/-- `Order.TAX_RATE = 0.20`. -/
def Order.TAX_RATE : ℚ := 20 / 100

/-- The body of `sum(item.get_line_total() for item in self.order_items)`:
adds the line totals left to right, propagating a fault (`none`) raised by
any line. -/
def sumLineTotals : List OrderItem → Option ℚ
  | [] => some 0
  | oi :: rest =>
    match oi.get_line_total, sumLineTotals rest with
    | some t, some s => some (t + s)
    | _, _ => none

/-- `Order.get_total`: `subtotal + subtotal * TAX_RATE` inside
`try/except`; any computation fault is caught and `0.0` returned. -/
def Order.get_total (o : Order) : ℚ :=
  match sumLineTotals o.order_items with
  | some subtotal => subtotal + subtotal * Order.TAX_RATE
  | none => 0

/-- `Order.add_item`: appends the line and notifies. The returned list is
the messages this operation passes to `notify`. -/
def Order.add_item (o : Order) (order_item : OrderItem) : Order × List String :=
  ({ o with order_items := o.order_items ++ [order_item] }, ["Item added to order"])

/-- `Order.remove_item(list_number, qty)`: 1-based position. In range:
delete the line when `qty >= quantity` (notifying removal), else decrement
its quantity (notifying update). Out of range: silent no-op. -/
def Order.remove_item (o : Order) (list_number : Int) (qty : Int) : Order × List String :=
  let index := list_number - 1
  if 0 ≤ index ∧ index < (o.order_items.length : Int) then
    match o.order_items[index.toNat]? with
    | some order_item =>
      if qty ≥ order_item.quantity then
        ({ o with order_items := o.order_items.eraseIdx index.toNat },
         ["Item has been removed from your order"])
      else
        ({ o with order_items :=
            (o.order_items.set index.toNat
              { order_item with quantity := order_item.quantity - qty }) },
         ["the item quantity has been updated"])
    | none => (o, [])
  else
    (o, [])

/-- `Staff.update_order_status`: sets the status and notifies. -/
def Staff.update_order_status (o : Order) (new_status : String) : Order × List String :=
  ({ o with order_status := new_status },
   ["Order status updated to \x27" ++ new_status ++ "\x27"])

/-- `Bill`: id, reference to the source order, and the total captured by
`__init__` via `order.get_total()`. -/
structure Bill where
  bill_id : Int
  order : Order
  bill_total : ℚ
deriving DecidableEq, Repr

/-- `Bill.__init__`: stores the order reference and captures
`order.get_total()` into `bill_total`. -/
def Bill.init (bill_id : Int) (o : Order) : Bill :=
  { bill_id := bill_id, order := o, bill_total := o.get_total }

/-- The Order mutations available in the source: `add_item`,
`remove_item`, and a staff status update. -/
inductive Mutation where
  | addItem (oi : OrderItem)
  | removeItem (list_number qty : Int)
  | updateStatus (s : String)
deriving DecidableEq, Repr

def Mutation.apply : Mutation → Order → Order
  | .addItem oi, o => (o.add_item oi).1
  | .removeItem n q, o => (o.remove_item n q).1
  | .updateStatus s, o => (Staff.update_order_status o s).1

/-- A session holding the live order and any bills already issued. None
of the source's order mutations touches an issued `Bill`. -/
structure SessionState where
  order : Order
  bills : List Bill
deriving DecidableEq, Repr

def SessionState.step (st : SessionState) (m : Mutation) : SessionState :=
  { st with order := m.apply st.order }

def SessionState.run (st : SessionState) : List Mutation → SessionState
  | [] => st
  | m :: ms => (st.step m).run ms

/-- The generic observer `Subject`: holds the list of attached observers. -/
structure Subject (α : Type) where
  observers : List α

/-- `Subject.attach`: appends the observer to the list. -/
def Subject.attach {α : Type} (s : Subject α) (observer : α) : Subject α :=
  { s with observers := s.observers ++ [observer] }

/-- The `for observer in self._observers: observer.update(message)` loop
of `Subject.notify`, modelled as the trace of `update` calls it makes, in
loop order. -/
def notifyLoop {α : Type} (message : String) : List α → List (α × String)
  | [] => []
  | observer :: rest => (observer, message) :: notifyLoop message rest

/-- `Subject.notify`: calls `update(message)` on each observer in list
order; the result is the call trace. -/
def Subject.notify {α : Type} (s : Subject α) (message : String) : List (α × String) :=
  notifyLoop message s.observers

/-- `Payment`: id, method string ("Cash" or "Card" expected), amount. -/
structure Payment where
  payment_id : String
  payment_method : String
  payment_amount : ℚ
deriving DecidableEq, Repr

/-- Observable outcome of `Payment.process_payment`: the invalid-amount
early return, the invalid-method prompt (the re-prompting loop still
waiting for a valid method), or the payment-received confirmation. -/
inductive PaymentOutcome where
  | invalidAmount
  | invalidMethod
  | confirmed
deriving DecidableEq, Repr

/-- Python's `str.upper`, modelled directly on the character list (the
method strings involved are ASCII, where `Char.toUpper` agrees with
Python's `upper`). -/
def strUpper (s : String) : String := String.mk (s.data.map Char.toUpper)

/-- The `while self.payment_method.upper() not in ["CASH", "CARD"]` loop:
each iteration replaces the method with the next interactive input.
Returns the final method and whether a valid method was reached (`false`
means the loop is still prompting when the supplied inputs run out). -/
def methodLoop : String → List String → String × Bool
  | method, [] => (method, ["CASH", "CARD"].contains (strUpper method))
  | method, i :: rest =>
    if ["CASH", "CARD"].contains (strUpper method) then (method, true)
    else methodLoop i rest

/-- `Payment.process_payment`, with the interactive inputs of the
re-prompting loop supplied as an oracle list. Returns the payment state
after the call and the observable outcome. -/
def Payment.process_payment (p : Payment) (inputs : List String) : Payment × PaymentOutcome :=
  if p.payment_amount ≤ 0 then (p, .invalidAmount)
  else
    match methodLoop p.payment_method inputs with
    | (m, true) => ({ p with payment_method := m }, .confirmed)
    | (m, false) => ({ p with payment_method := m }, .invalidMethod)

/-- `Menu`: the catalog, a list of menu items in insertion order. -/
structure Menu where
  items : List MenuItem
deriving DecidableEq, Repr

/-- `Menu.add_item`: unconditionally appends (no duplicate-id check). -/
def Menu.add_item (menu : Menu) (item : MenuItem) : Menu :=
  { menu with items := menu.items ++ [item] }

/-- `Menu.remove_item`: keeps every item whose id differs. -/
def Menu.remove_item (menu : Menu) (item_id : Int) : Menu :=
  { menu with items := menu.items.filter (fun item => item.item_id ≠ item_id) }

/-- The `for item in self.items` lookup loop of `Menu.get_item_by_id`:
returns the first item with the given id, else `None`. -/
def findLoop (item_id : Int) : List MenuItem → Option MenuItem
  | [] => none
  | item :: rest => if item.item_id = item_id then some item else findLoop item_id rest

/-- `Menu.get_item_by_id`: linear search, `None` when absent. -/
def Menu.get_item_by_id (menu : Menu) (item_id : Int) : Option MenuItem :=
  findLoop item_id menu.items

/-- Written from the spec, not the source: the integer rounding used by
`round`, rounding halves to even as Python does. -/
def bankersRound (q : ℚ) : Int :=
  let f := q.floor
  if q - f < 1 / 2 then f
  else if 1 / 2 < q - f then f + 1
  else if f % 2 = 0 then f else f + 1

/-- Written from the spec, not the source: `round(x, 2)` at
money-precision, rounding `x` to two decimal places. -/
def spec_round2 (x : ℚ) : ℚ :=
  (bankersRound (x * 100) : ℚ) / 100

/-- Written from the spec, not the source: `sum(price_i * qty_i)` over the
current lines (a malformed reference contributes its absent price as 0,
irrelevant for the well-formed orders the spec sentence quantifies over). -/
def spec_subtotal (o : Order) : ℚ :=
  (o.order_items.map
    (fun oi => ((oi.menu_item.map MenuItem.item_price).getD 0) * (oi.quantity : ℚ))).sum

/-- Written from the spec, not the source: the claimed total
`round(sum(price_i * qty_i) * 1.20, 2)`. -/
def spec_total (o : Order) : ℚ :=
  spec_round2 (spec_subtotal o * (120 / 100))

/-- Concrete fixture: a one-penny food item, whose price times 1.20 has
three decimal places. -/
def pennyItem : MenuItem := .food 9 "Penny Candy" (1 / 100)

/-- Concrete fixture: an order holding one penny item. -/
def pennyOrder : Order :=
  { order_id := 2, order_date := 0, order_status := "Pending",
    order_items := [{ orderitem_id := 1, menu_item := some pennyItem, quantity := 1 }] }

/-- Concrete fixture: the menu's first food item (id 1, price 3.50). -/
def sandwichItem : MenuItem := .food 1 "Chuna Sandwich" (350 / 100)

/-- Concrete fixture: an order of two sandwiches (total 8.40). -/
def sandwichOrder : Order :=
  { order_id := 2, order_date := 0, order_status := "Pending",
    order_items := [{ orderitem_id := 1, menu_item := some sandwichItem, quantity := 2 }] }

/-- Concrete fixture: an order holding one malformed line (a faulty item
reference). -/
def faultyOrder : Order :=
  { order_id := 3, order_date := 0, order_status := "Pending",
    order_items := [{ orderitem_id := 1, menu_item := none, quantity := 1 }] }

/-- Concrete fixture: a cash payment of amount 0. -/
def zeroCashPayment : Payment :=
  { payment_id := "PAY001", payment_method := "Cash", payment_amount := 0 }

/-- Concrete fixture: a lowercase-method payment of amount 5.00. -/
def lowerCashPayment : Payment :=
  { payment_id := "PAY002", payment_method := "cash", payment_amount := 5 }

/-- Concrete fixture: a payment with an unsupported method. -/
def voucherPayment : Payment :=
  { payment_id := "PAY003", payment_method := "Voucher", payment_amount := 5 }

/-- Concrete fixture: a one-item catalog. -/
def demoMenu : Menu := { items := [sandwichItem] }

/-- Concrete fixture: a catalog holding two distinct items with the same
id 1, in insertion order. -/
def dupMenu : Menu := { items := [.food 1 "First" 1, .food 1 "Second" 2] }

/-- With every line's item reference intact, the summation loop succeeds
and yields the sum of `price * quantity` over the lines. -/
theorem sumLineTotals_of_wellformed (l : List OrderItem)
    (h : ∀ oi ∈ l, oi.menu_item.isSome) :
    sumLineTotals l =
      some ((l.map
        (fun oi => ((oi.menu_item.map MenuItem.item_price).getD 0) * (oi.quantity : ℚ))).sum) := by
  induction l with
  | nil => simp [sumLineTotals]
  | cons a t ih =>
    obtain ⟨m, hm⟩ := Option.isSome_iff_exists.mp (h a (by simp))
    have ht := ih (fun oi hoi => h oi (by simp [hoi]))
    simp [sumLineTotals, OrderItem.get_line_total, hm, ht]

/-- A faulty line makes the summation loop raise. -/
theorem sumLineTotals_of_fault (l : List OrderItem)
    (h : ∃ oi ∈ l, oi.menu_item = none) :
    sumLineTotals l = none := by
  induction l with
  | nil => simp at h
  | cons a t ih =>
    rcases h with ⟨oi, hmem, hnone⟩
    rcases List.mem_cons.mp hmem with rfl | htail
    · simp [sumLineTotals, OrderItem.get_line_total, hnone]
    · have := ih ⟨oi, htail, hnone⟩
      cases hga : oi.get_line_total <;>
        cases hga2 : OrderItem.get_line_total a <;>
          simp [sumLineTotals, hga2, this]

/-- Claim C1 (amended): for every order whose lines all hold intact item
references, `get_total` returns `sum(price_i * qty_i) * 1.20` exactly —
tax is applied at aggregation time only, but the result is never rounded
to 2 decimal places — and the total of an empty order is `0.0`. -/
theorem get_total_eq_subtotal_times_tax (o : Order)
    (h : ∀ oi ∈ o.order_items, oi.menu_item.isSome) :
    o.get_total = spec_subtotal o * (120 / 100)
      ∧ (o.order_items = [] → o.get_total = 0) := by
  have hs := sumLineTotals_of_wellformed o.order_items h
  constructor
  · simp [Order.get_total, hs, spec_subtotal, Order.TAX_RATE]
    ring
  · intro he
    simp [Order.get_total, he, sumLineTotals]

/-- Counterexample to claim C1 as stated: for a one-line order of one
item priced 0.01, the code returns `0.01 * 1.20 = 0.012`, while the
claimed `round(sum * 1.20, 2)` is `0.01`. -/
theorem get_total_not_rounded :
    Order.get_total pennyOrder ≠ spec_total pennyOrder := by
  norm_num [Order.get_total, sumLineTotals, OrderItem.get_line_total, spec_total,
    spec_round2, spec_subtotal, bankersRound, Order.TAX_RATE, MenuItem.item_price,
    pennyOrder, pennyItem, Rat.floor]

/-- Witness for C1: the amended statement evaluated on a concrete order of
two 3.50 sandwiches. -/
theorem get_total_eq_witness :
    Order.get_total sandwichOrder = spec_subtotal sandwichOrder * (120 / 100)
      ∧ (sandwichOrder.order_items = [] → Order.get_total sandwichOrder = 0) :=
  get_total_eq_subtotal_times_tax sandwichOrder (by decide)

/-- No session mutation touches the bills already issued. -/
theorem SessionState.run_bills (ms : List Mutation) (st : SessionState) :
    (st.run ms).bills = st.bills := by
  induction ms generalizing st with
  | nil => rfl
  | cons m rest ih => simpa [SessionState.run] using ih (st.step m)

/-- Claim C2: a `Bill` captures the order total at construction time; any
later sequence of mutations of the source order (`add_item`,
`remove_item`, status update) leaves the already-issued bill — and hence
its stored `bill_total`, equal to the order total at construction —
unchanged. -/
theorem bill_total_frozen (bill_id : Int) (o : Order) (bs : List Bill)
    (ms : List Mutation) :
    (SessionState.run { order := o, bills := Bill.init bill_id o :: bs } ms).bills
        = Bill.init bill_id o :: bs
      ∧ (Bill.init bill_id o).bill_total = o.get_total :=
  ⟨SessionState.run_bills ms _, rfl⟩

/-- Case analysis of `remove_item` at an in-range 1-based position: with
`qty` at least the line's quantity the line is deleted and the removal
message emitted; with `qty` smaller the line's quantity drops by `qty`,
the line count is unchanged, and the update message is emitted. -/
theorem remove_item_cases (o : Order) (i : Nat) (qty : Int) (line : OrderItem)
    (hline : o.order_items[i]? = some line) :
    (line.quantity ≤ qty →
        (o.remove_item ((i : Int) + 1) qty).1.order_items.length
            = o.order_items.length - 1
          ∧ (o.remove_item ((i : Int) + 1) qty).2
            = ["Item has been removed from your order"])
      ∧ (qty < line.quantity →
        (o.remove_item ((i : Int) + 1) qty).1.order_items.length
            = o.order_items.length
          ∧ (o.remove_item ((i : Int) + 1) qty).1.order_items[i]?
            = some { line with quantity := line.quantity - qty }
          ∧ (o.remove_item ((i : Int) + 1) qty).2
            = ["the item quantity has been updated"]) := by
  have hi : i < o.order_items.length := (List.getElem?_eq_some.mp hline).1
  have hidx : ((i : Int) + 1 - 1) = (i : Int) := by ring
  have htn : ((i : Int)).toNat = i := Int.toNat_natCast i
  constructor
  · intro hq
    have hge : qty ≥ line.quantity := hq
    simp only [Order.remove_item, hidx, htn, hline]
    rw [if_pos ⟨Int.natCast_nonneg i, by exact_mod_cast hi⟩, if_pos hge]
    refine ⟨?_, rfl⟩
    simp [List.length_eraseIdx, hi]
  · intro hq
    have hnge : ¬ qty ≥ line.quantity := not_le.mpr hq
    simp only [Order.remove_item, hidx, htn, hline]
    rw [if_pos ⟨Int.natCast_nonneg i, by exact_mod_cast hi⟩, if_neg hnge]
    refine ⟨by simp, ?_, rfl⟩
    simp [List.getElem?_set_self, hi]

/-- Claim C3: `remove_item` at an in-range 1-based position deletes the
line (count down by one) and emits "Item has been removed from your
order" when `qty` is at least the line's quantity, and otherwise
decrements the line's quantity by `qty`, keeps the count, and emits "the
item quantity has been updated". -/
theorem remove_item_in_range (o : Order) (i : Nat) (qty : Int) (line : OrderItem)
    (hline : o.order_items[i]? = some line) :
    (line.quantity ≤ qty →
        (o.remove_item ((i : Int) + 1) qty).1.order_items.length
            = o.order_items.length - 1
          ∧ (o.remove_item ((i : Int) + 1) qty).2
            = ["Item has been removed from your order"])
      ∧ (qty < line.quantity →
        (o.remove_item ((i : Int) + 1) qty).1.order_items.length
            = o.order_items.length
          ∧ (o.remove_item ((i : Int) + 1) qty).1.order_items[i]?
            = some { line with quantity := line.quantity - qty }
          ∧ (o.remove_item ((i : Int) + 1) qty).2
            = ["the item quantity has been updated"]) :=
  remove_item_cases o i qty line hline

/-- Witness for C3: removing 2 units at position 1 of the two-sandwich
order deletes the line and emits the removal message. -/
theorem remove_item_in_range_witness :
    (sandwichOrder.remove_item 1 2).1.order_items.length
        = sandwichOrder.order_items.length - 1
      ∧ (sandwichOrder.remove_item 1 2).2
        = ["Item has been removed from your order"] :=
  (remove_item_in_range sandwichOrder 0 2
    { orderitem_id := 1, menu_item := some sandwichItem, quantity := 2 }
    (by rfl)).1 (by decide)

/-- Claim C5: `remove_item` at an out-of-range 1-based position is a
silent no-op — the order (lines, quantities, status) is returned
unchanged and no notification is emitted. -/
theorem remove_item_out_of_range (o : Order) (list_number qty : Int)
    (h : list_number ≤ 0 ∨ (o.order_items.length : Int) < list_number) :
    o.remove_item list_number qty = (o, []) := by
  have hcond : ¬ (0 ≤ list_number - 1
      ∧ list_number - 1 < (o.order_items.length : Int)) := by
    rcases h with h | h <;> omega
  simp only [Order.remove_item]
  rw [if_neg hcond]

/-- Witness for C5: removing position 5 from a one-line order changes
nothing and emits nothing. -/
theorem remove_item_out_of_range_witness :
    sandwichOrder.remove_item 5 1 = (sandwichOrder, []) :=
  remove_item_out_of_range sandwichOrder 5 1 (Or.inr (by decide))

/-- Claim C8: appending a line with `add_item` and immediately removing it
at its (1-based) position with the same quantity restores the prior line
count. -/
theorem add_then_remove_restores_count (o : Order) (oi : OrderItem) :
    (((o.add_item oi).1.remove_item ((o.order_items.length : Int) + 1)
        oi.quantity).1).order_items.length = o.order_items.length := by
  have hget : ((o.add_item oi).1.order_items)[o.order_items.length]? = some oi := by
    simp [Order.add_item]
  have h := (remove_item_cases (o.add_item oi).1 o.order_items.length
    oi.quantity oi hget).1 le_rfl
  have hlen : ((o.add_item oi).1).order_items.length = o.order_items.length + 1 := by
    simp [Order.add_item]
  omega

/-- A method already valid leaves the prompting loop at once, unchanged. -/
theorem methodLoop_of_valid (m : String) (inputs : List String)
    (h : ["CASH", "CARD"].contains (strUpper m) = true) :
    methodLoop m inputs = (m, true) := by
  cases inputs with
  | nil => unfold methodLoop; rw [h]
  | cons i rest => unfold methodLoop; rw [if_pos h]

/-- Claim C4: `process_payment` with amount ≤ 0 returns the invalid-amount
failure with the payment state untouched; with positive amount and a
method whose uppercasing is CASH or CARD it confirms; with positive
amount and any other method (and no corrective input supplied) it reports
the invalid-method condition instead of confirming. -/
theorem process_payment_spec (p : Payment) (inputs : List String) :
    (p.payment_amount ≤ 0 → p.process_payment inputs = (p, .invalidAmount))
      ∧ (0 < p.payment_amount →
          ["CASH", "CARD"].contains (strUpper p.payment_method) = true →
          p.process_payment inputs = (p, .confirmed))
      ∧ (0 < p.payment_amount →
          ["CASH", "CARD"].contains (strUpper p.payment_method) = false →
          p.process_payment [] = (p, .invalidMethod)) := by
  refine ⟨fun hle => ?_, fun hpos hval => ?_, fun hpos hinval => ?_⟩
  · simp [Payment.process_payment, hle]
  · simp [Payment.process_payment, not_le.mpr hpos, methodLoop_of_valid _ _ hval]
  · have hml : methodLoop p.payment_method [] = (p.payment_method, false) := by
      unfold methodLoop; rw [hinval]
    simp [Payment.process_payment, not_le.mpr hpos, hml]

/-- Witness for C4: amount 0 with method Cash fails untouched; amount 5
with method "cash" confirms case-insensitively; amount 5 with method
"Voucher" reports the invalid method. -/
theorem process_payment_witness :
    zeroCashPayment.process_payment [] = (zeroCashPayment, .invalidAmount)
      ∧ lowerCashPayment.process_payment [] = (lowerCashPayment, .confirmed)
      ∧ voucherPayment.process_payment [] = (voucherPayment, .invalidMethod) :=
  ⟨(process_payment_spec zeroCashPayment []).1 le_rfl,
   (process_payment_spec lowerCashPayment []).2.1 (by norm_num [lowerCashPayment])
     (by decide),
   (process_payment_spec voucherPayment []).2.2 (by norm_num [voucherPayment])
     (by decide)⟩

/-- The lookup loop misses when no item carries the id. -/
theorem findLoop_eq_none (item_id : Int) (l : List MenuItem)
    (h : ∀ item ∈ l, item.item_id ≠ item_id) :
    findLoop item_id l = none := by
  induction l with
  | nil => rfl
  | cons a t ih =>
    have ha := h a (by simp)
    simp [findLoop, ha, ih (fun it hit => h it (by simp [hit]))]

/-- The lookup loop finds some item with the id when one is present. -/
theorem findLoop_finds (item_id : Int) (l : List MenuItem)
    (h : ∃ item ∈ l, item.item_id = item_id) :
    ∃ item, findLoop item_id l = some item ∧ item.item_id = item_id := by
  induction l with
  | nil => simp at h
  | cons a t ih =>
    by_cases ha : a.item_id = item_id
    · exact ⟨a, by simp [findLoop, ha], ha⟩
    · rcases h with ⟨it, hmem, hid⟩
      rcases List.mem_cons.mp hmem with rfl | htail
      · exact absurd hid ha
      · rcases ih ⟨it, htail, hid⟩ with ⟨r, hr, hrid⟩
        exact ⟨r, by simp [findLoop, ha, hr], hrid⟩

/-- Claim C6: `get_item_by_id` returns `None` (and raises nothing — it is
a total function) when no catalog item carries the id, and returns some
`MenuItem` carrying the id when one is present. -/
theorem get_item_by_id_spec (menu : Menu) (item_id : Int) :
    ((∀ item ∈ menu.items, item.item_id ≠ item_id) →
        menu.get_item_by_id item_id = none)
      ∧ ((∃ item ∈ menu.items, item.item_id = item_id) →
        ∃ item, menu.get_item_by_id item_id = some item
          ∧ item.item_id = item_id) :=
  ⟨findLoop_eq_none item_id menu.items, findLoop_finds item_id menu.items⟩

/-- Witness for C6: a one-item catalog misses id 2 with `none` and finds
its id-1 item. -/
theorem get_item_by_id_witness :
    demoMenu.get_item_by_id 2 = none
      ∧ ∃ item, demoMenu.get_item_by_id 1 = some item ∧ item.item_id = 1 :=
  ⟨(get_item_by_id_spec demoMenu 2).1
     (by simp [demoMenu, sandwichItem, MenuItem.item_id]),
   (get_item_by_id_spec demoMenu 1).2
     ⟨sandwichItem, by simp [demoMenu], rfl⟩⟩

/-- Claim C7: `get_total` never raises — it is a total function of the
order state — and on an order containing a malformed line, whose subtotal
computation faults, it returns the `0.0` fallback instead of propagating
the fault. -/
theorem get_total_fail_soft (o : Order)
    (h : ∃ oi ∈ o.order_items, oi.menu_item = none) :
    o.get_total = 0 := by
  simp [Order.get_total, sumLineTotals_of_fault o.order_items h]

/-- Witness for C7: the one-malformed-line order totals to the fallback 0. -/
theorem get_total_fail_soft_witness : faultyOrder.get_total = 0 :=
  get_total_fail_soft faultyOrder
    ⟨{ orderitem_id := 1, menu_item := none, quantity := 1 }, by simp [faultyOrder], rfl⟩

/-- The notification loop calls `update` once per list entry, in order. -/
theorem notifyLoop_getElem (message : String) {α : Type} (l : List α) (i : Nat) :
    (notifyLoop message l)[i]? = (l[i]?).map (fun observer => (observer, message)) := by
  induction l generalizing i with
  | nil => simp [notifyLoop]
  | cons a t ih => cases i <;> simp [notifyLoop, ih]

theorem notifyLoop_length (message : String) {α : Type} (l : List α) :
    (notifyLoop message l).length = l.length := by
  induction l with
  | nil => rfl
  | cons a t ih => simp [notifyLoop, ih]

/-- Claim C9: `notify(message)` produces exactly one `update(message)`
call per currently-subscribed observer, in subscription order — the call
trace is the observer list paired with the message, index by index — and
`attach` appends, so subscription order is list order. -/
theorem notify_spec {α : Type} (s : Subject α) (message : String) :
    (s.notify message).length = s.observers.length
      ∧ (∀ i : Nat, (s.notify message)[i]?
          = (s.observers[i]?).map (fun observer => (observer, message)))
      ∧ (∀ observer, (s.attach observer).observers = s.observers ++ [observer]) :=
  ⟨notifyLoop_length message s.observers,
   fun i => notifyLoop_getElem message s.observers i,
   fun _ => rfl⟩

/-- The lookup loop returns the earliest entry carrying the id. -/
theorem findLoop_first (item_id : Int) (l : List MenuItem) :
    ∀ (i : Nat) (it : MenuItem), l[i]? = some it → it.item_id = item_id →
      (∀ j < i, ∀ it2 : MenuItem, l[j]? = some it2 → it2.item_id ≠ item_id) →
      findLoop item_id l = some it := by
  induction l with
  | nil => intro i it h; simp at h
  | cons a t ih =>
    intro i it hit hid hfirst
    cases i with
    | zero =>
      simp at hit
      subst hit
      simp [findLoop, hid]
    | succ k =>
      have ha : a.item_id ≠ item_id := hfirst 0 (Nat.succ_pos k) a (by simp)
      simp at hit
      simp only [findLoop, if_neg ha]
      exact ih k it hit hid
        (fun j hj it2 h2 => hfirst (j + 1) (by omega) it2 (by simpa using h2))

/-- Claim C10: `Menu.add_item` appends unconditionally — an item whose id
already exists is never rejected — and `get_item_by_id` returns the
earliest-inserted item carrying the id: the item at the least index whose
id matches. -/
theorem menu_duplicates_spec (menu : Menu) (item : MenuItem) (item_id : Int) :
    (menu.add_item item).items = menu.items ++ [item]
      ∧ (∀ (i : Nat) (it : MenuItem), menu.items[i]? = some it →
          it.item_id = item_id →
          (∀ j < i, ∀ it2 : MenuItem, menu.items[j]? = some it2 →
            it2.item_id ≠ item_id) →
          menu.get_item_by_id item_id = some it) :=
  ⟨rfl, fun i it hit hid hfirst => findLoop_first item_id menu.items i it hit hid hfirst⟩

/-- Witness for C10: a catalog with two id-1 items accepts a third, and
lookup of id 1 returns the first-inserted item. -/
theorem menu_duplicates_witness :
    (dupMenu.add_item (.food 1 "Third" 3)).items = dupMenu.items ++ [.food 1 "Third" 3]
      ∧ dupMenu.get_item_by_id 1 = some (.food 1 "First" 1) :=
  ⟨(menu_duplicates_spec dupMenu (.food 1 "Third" 3) 1).1,
   (menu_duplicates_spec dupMenu (.food 1 "Third" 3) 1).2 0 (.food 1 "First" 1)
     (by rfl) rfl (fun j hj => absurd hj (Nat.not_lt_zero j))⟩

end Cafe
